import Mathlib

/-!
Shallow embedding of
`src/projetos-javascript/projetos-com-orientacao-objetos/playlist/assets/js/scripts.js`.

JavaScript numbers are modelled as follows: playlist cursors and the
arguments of `setIndex` are exact integers (`Int`), with the JS `%`
operator on integers embedded as `Int.tmod` (JS `%` truncates toward
zero, so its result carries the sign of the dividend).  Audio times and
durations are modelled as exact rationals (`ℚ`), and the `NaN` duration
an HTMLMediaElement reports before metadata loads is modelled as `none`
of an `Option ℚ`.  The tone synthesizer's floating-point sine pipeline
is modelled over the ideal reals (`ℝ`), with JS `x | 0` embedded as
truncation toward zero followed by the ECMAScript `ToInt32` wrap.
JS strings that carry binary data are modelled as lists of code units
(`List ℕ`).
-/

/-- `class Track`: the constructor copies `id` and `title` and applies the
defaults `artist ?? "Artista"`, `audioUrl ?? ""`, `color ?? null`. -/
structure Track where
  id : String
  title : String
  artist : String
  audioUrl : String
  color : Option String
  deriving DecidableEq

/-- The `Track` constructor with its default arguments. -/
def Track.make (id title : String) (artist audioUrl color : Option String) : Track :=
  { id := id, title := title, artist := artist.getD "Artista",
    audioUrl := audioUrl.getD "", color := color }

/-- `class Playlist`: an ordered list of tracks plus the cursor `index`.
The cursor is an `Int` because JS numbers are signed and the field is
publicly writable. -/
structure Playlist where
  tracks : List Track
  index : Int
  deriving DecidableEq

/-- `constructor(tracks = []){ this.tracks = tracks; this.index = 0; }` -/
def Playlist.init (tracks : List Track) : Playlist :=
  { tracks := tracks, index := 0 }

/-- `setIndex(i){ if(!this.tracks.length) return;
this.index = ((i % this.tracks.length) + this.tracks.length) % this.tracks.length; }` -/
def Playlist.setIndex (p : Playlist) (i : Int) : Playlist :=
  if p.tracks.length = 0 then p
  else { p with
    index := (Int.tmod i p.tracks.length + p.tracks.length).tmod p.tracks.length }

/-- `current(){ return this.tracks[this.index] ?? null; }`
(JS indexing with a negative or out-of-range integer yields `undefined`,
which `?? null` turns into `null`). -/
def Playlist.current (p : Playlist) : Option Track :=
  if 0 ≤ p.index then p.tracks[p.index.toNat]? else none

/-- `next(){ this.setIndex(this.index + 1); return this.current(); }`
modelled as the state after the mutation; the JS return value is
`Playlist.current` of this state. -/
def Playlist.next (p : Playlist) : Playlist :=
  p.setIndex (p.index + 1)

/-- `prev(){ this.setIndex(this.index - 1); return this.current(); }` -/
def Playlist.prev (p : Playlist) : Playlist :=
  p.setIndex (p.index - 1)

/-- `byId(id){ return this.tracks.find(t => t.id === id) ?? null; }` -/
def Playlist.byId (p : Playlist) (id : String) : Option Track :=
  p.tracks.find? (fun t => t.id == id)

/-- Playlist states reachable through the public navigation API from
construction: `new Playlist(tracks)` followed by any sequence of
`setIndex`, `next`, `prev` calls. -/
inductive Reachable : Playlist → Prop
  | init (ts : List Track) : Reachable (Playlist.init ts)
  | setIndex {p : Playlist} (i : ℤ) : Reachable p → Reachable (p.setIndex i)
  | next {p : Playlist} : Reachable p → Reachable p.next
  | prev {p : Playlist} : Reachable p → Reachable p.prev

/-- The first entry of the bootstrap `demoTracks` array. -/
def tDemo : Track :=
  Track.make "1" "Musica player" (some "Canal A") (some "assets/musics/1.mp3")
    (some "#12c274")

/-! ### The audio engine

`AudioEngine` wraps one HTMLAudioElement (`this.audio`).  Only the state
this file's claims are about is modelled: the assigned `src`, the
reported `duration` (`none` standing for the `NaN` reported before
metadata loads) and `currentTime`.  The `play`/`pause`/`toggle` calls and
the `timeupdate`/`ended` callback registrations are requests to the
external playback primitive and carry no state of their own here. -/

structure AudioElem where
  src : String
  duration : Option ℚ
  currentTime : ℚ
  deriving DecidableEq

structure AudioEngine where
  audio : AudioElem
  deriving DecidableEq

/-- `constructor(){ this.audio = new Audio(); ... }` — a fresh element has
an empty `src`, `NaN` duration and `currentTime` 0. -/
def AudioEngine.init : AudioEngine :=
  { audio := { src := "", duration := none, currentTime := 0 } }

/-- `seekPercent(p){ if(this.audio.duration>0){ this.audio.currentTime = p * this.audio.duration; } }`
(`NaN > 0` is false in JS, hence the `none` branch is a no-op). -/
def AudioEngine.seekPercent (e : AudioEngine) (p : ℚ) : AudioEngine :=
  match e.audio.duration with
  | some d => if 0 < d then { e with audio := { e.audio with currentTime := p * d } } else e
  | none => e

/-- The record returned by `timeInfo()`. -/
structure TimeInfo where
  current : ℚ
  duration : ℚ
  percent : ℚ
  deriving DecidableEq

/-- `timeInfo(){ const d = this.audio.duration || 0; const c = this.audio.currentTime || 0;
const percent = d ? Math.min(1, Math.max(0, c/d)) : 0; return { current:c, duration:d, percent }; }`
(`x || 0` maps `NaN` — the `none` duration — to 0 and is the identity on
rationals; a JS number is truthy exactly when it is non-zero). -/
def AudioEngine.timeInfo (e : AudioEngine) : TimeInfo :=
  { current := e.audio.currentTime,
    duration := e.audio.duration.getD 0,
    percent :=
      if e.audio.duration.getD 0 ≠ 0 then
        min 1 (max 0 (e.audio.currentTime / e.audio.duration.getD 0))
      else 0 }

/-! ### The synthesized fallback tone (`_tinyBeepDataURI`)

JS strings built with `String.fromCharCode` are byte strings; they are
modelled as `List ℕ` of code units.  The floating-point sine pipeline is
modelled over the ideal reals. -/

/-- `Math.trunc` as performed by `x | 0`: truncation toward zero. -/
noncomputable def jsTrunc (x : ℝ) : ℤ :=
  if 0 ≤ x then ⌊x⌋ else ⌈x⌉

/-- ECMAScript `ToInt32`, the full semantics of `x | 0`: truncate, wrap
modulo `2^32` into `[-2^31, 2^31)`. -/
noncomputable def jsToInt32 (x : ℝ) : ℤ :=
  if jsTrunc x % 2 ^ 32 < 2 ^ 31 then jsTrunc x % 2 ^ 32 else jsTrunc x % 2 ^ 32 - 2 ^ 32

/-- ECMAScript `ToUint16`, applied by `String.fromCharCode` to each
argument. -/
def toUint16 (z : ℤ) : ℕ :=
  (z % 2 ^ 16).toNat

/-- `const sampleRate = 8000`. -/
def sampleRate : ℕ := 8000

/-- `const freq = 440`. -/
def freq : ℕ := 440

/-- `const len = sampleRate * seconds | 0` with `seconds = 0.25`. -/
noncomputable def beepLen : ℤ :=
  jsToInt32 ((sampleRate : ℝ) * 0.25)

/-- One loop iteration: `const v = Math.sin(2*Math.PI*freq*i/sampleRate);
const u8 = (v*0.35 + 0.5)*255 | 0; data += String.fromCharCode(u8);`. -/
noncomputable def sampleByte (i : ℕ) : ℕ :=
  toUint16 (jsToInt32 ((Real.sin (2 * Real.pi * freq * i / sampleRate) * 0.35 + 0.5) * 255))

/-- The `data` string accumulated by the loop `for(let i=0;i<len;i++)`. -/
noncomputable def beepData : List ℕ :=
  (List.range beepLen.toNat).map sampleByte

/-- Code units of a literal JS string. -/
def strBytes (s : String) : List ℕ :=
  s.toList.map Char.toNat

/-- `const header = "RIFF????WAVEfmt " + String.fromCharCode(16,0,0,0,1,0,1,0,
sampleRate&255,(sampleRate>>8)&255,(sampleRate>>16)&255,(sampleRate>>24)&255,
1,0,8,0) + "data????"`. -/
def beepHeader : List ℕ :=
  strBytes "RIFF????WAVEfmt " ++
    [16, 0, 0, 0, 1, 0, 1, 0,
      sampleRate &&& 255, (sampleRate >>> 8) &&& 255,
      (sampleRate >>> 16) &&& 255, (sampleRate >>> 24) &&& 255,
      1, 0, 8, 0] ++
    strBytes "data????"

/-- `function u32(n){ return String.fromCharCode(n&255,(n>>8)&255,(n>>16)&255,(n>>24)&255); }`
(for the non-negative sizes it is applied to). -/
def u32 (n : ℕ) : List ℕ :=
  [n &&& 255, (n >>> 8) &&& 255, (n >>> 16) &&& 255, (n >>> 24) &&& 255]

/-- `String.prototype.replace` with a plain non-empty pattern: replace the
first occurrence, the identity when the pattern is absent. -/
def replaceOnce (pat repl : List ℕ) : List ℕ → List ℕ
  | [] => []
  | a :: rest =>
    if (a :: rest).take pat.length = pat then repl ++ (a :: rest).drop pat.length
    else a :: replaceOnce pat repl rest

/-- `const wav = header.replace("????", u32(totalSize).slice(0,4))
.replace("????", u32(chunkSize).slice(0,4)) + data;` with
`totalSize = 36 + data.length`, `chunkSize = data.length`, and 63 the code
unit of `?`. -/
noncomputable def beepWav : List ℕ :=
  replaceOnce [63, 63, 63, 63] ((u32 beepData.length).take 4)
    (replaceOnce [63, 63, 63, 63] ((u32 (36 + beepData.length)).take 4) beepHeader) ++
  beepData

/-- The base64 alphabet used by `btoa`. -/
def base64Alphabet : List Char :=
  "ABCDEFGHIJKLMNOPQRSTUVWXYZabcdefghijklmnopqrstuvwxyz0123456789+/".toList

def base64Char (n : ℕ) : Char :=
  base64Alphabet.getD n 'A'

/-- `btoa` on a byte string (all code units below 256). -/
def btoa : List ℕ → String
  | [] => ""
  | [a] =>
    String.mk [base64Char (a >>> 2), base64Char ((a &&& 3) <<< 4), '=', '=']
  | [a, b] =>
    String.mk [base64Char (a >>> 2), base64Char (((a &&& 3) <<< 4) ||| (b >>> 4)),
      base64Char ((b &&& 15) <<< 2), '=']
  | a :: b :: c :: rest =>
    String.mk [base64Char (a >>> 2), base64Char (((a &&& 3) <<< 4) ||| (b >>> 4)),
      base64Char (((b &&& 15) <<< 2) ||| (c >>> 6)), base64Char (c &&& 63)] ++
    btoa rest

/-- `return "data:audio/wav;base64," + btoa(wav);` -/
noncomputable def tinyBeepDataURI : String :=
  "data:audio/wav;base64," ++ btoa beepWav

/-- `async load(track){ if(!track || !track.audioUrl){ this.audio.src = this._tinyBeepDataURI(); }
else { this.audio.src = track.audioUrl; } await this.audio.load?.(); }`
(a JS string is falsy exactly when empty). -/
noncomputable def AudioEngine.load (e : AudioEngine) (track : Option Track) : AudioEngine :=
  match track with
  | none => { e with audio := { e.audio with src := tinyBeepDataURI } }
  | some t =>
    if t.audioUrl = "" then { e with audio := { e.audio with src := tinyBeepDataURI } }
    else { e with audio := { e.audio with src := t.audioUrl } }

/-! ### Arithmetic facts about the double-mod wrap -/

/-- JS `%` (truncating remainder) by a positive modulus is bounded below
by `-n`. -/
theorem neg_lt_tmod (i : ℤ) {n : ℤ} (hn : 0 < n) : -n < Int.tmod i n := by
  rcases le_or_lt 0 i with hi | hi
  · have h0 : 0 ≤ Int.tmod i n := Int.tmod_nonneg n hi
    omega
  · have hneg : Int.tmod i n = -Int.tmod (-i) n := by
      rw [Int.tmod_def, Int.tmod_def, Int.neg_tdiv]
      ring
    have hub : Int.tmod (-i) n < n := Int.tmod_lt_of_pos _ hn
    omega

/-- The double-mod wrap `((i % n) + n) % n` written with the JS truncating
remainder agrees with the mathematical (Euclidean) remainder. -/
theorem wrap_tmod_eq_emod (i : ℤ) {n : ℤ} (hn : 0 < n) :
    (Int.tmod i n + n).tmod n = i % n := by
  have hlow : -n < Int.tmod i n := neg_lt_tmod i hn
  have h0 : 0 ≤ Int.tmod i n + n := by omega
  rw [Int.tmod_eq_emod h0 (le_of_lt hn)]
  have h1 : Int.tmod i n + n = i + n * (1 - i.tdiv n) := by
    rw [Int.tmod_def]; ring
  rw [h1, Int.add_mul_emod_self_left]

/-- `setIndex` on a non-empty playlist keeps the tracks and stores the
Euclidean remainder of the requested position. -/
theorem setIndex_eq (p : Playlist) (i : ℤ) (h : p.tracks.length ≠ 0) :
    (p.setIndex i).tracks = p.tracks ∧
      (p.setIndex i).index = i % (p.tracks.length : ℤ) := by
  have hn : 0 < (p.tracks.length : ℤ) := by
    exact_mod_cast Nat.pos_of_ne_zero h
  unfold Playlist.setIndex
  rw [if_neg h]
  exact ⟨rfl, wrap_tmod_eq_emod i hn⟩

/-- C1: for every catalog built from a non-empty track list and every
integer `i`, `setCursor(i)` followed by `current()` returns precisely the
item at index `((i % n) + n) % n` (JS truncating `%`). -/
theorem setCursor_then_current (ts : List Track) (i : ℤ) (h : ts ≠ []) :
    ∃ t, ((Playlist.init ts).setIndex i).current = some t ∧
      ts[((Int.tmod i ts.length + ts.length).tmod ts.length).toNat]? = some t := by
  have hlen : ts.length ≠ 0 := by
    have hpos : 0 < ts.length := List.length_pos.mpr h
    omega
  have hn : 0 < (ts.length : ℤ) := by exact_mod_cast Nat.pos_of_ne_zero hlen
  obtain ⟨htr, hidx⟩ := setIndex_eq (Playlist.init ts) i (by simpa using hlen)
  have hwrap : (Int.tmod i ts.length + ts.length).tmod ts.length
      = i % (ts.length : ℤ) := wrap_tmod_eq_emod i hn
  have hnonneg : 0 ≤ i % (ts.length : ℤ) :=
    Int.emod_nonneg i (by omega)
  have hlt : i % (ts.length : ℤ) < ts.length := Int.emod_lt_of_pos i hn
  have hltNat : (i % (ts.length : ℤ)).toNat < ts.length := by omega
  refine ⟨ts[(i % (ts.length : ℤ)).toNat], ?_, ?_⟩
  · unfold Playlist.current
    rw [hidx]
    simp only [Playlist.init] at htr ⊢
    rw [if_pos hnonneg, htr]
    exact List.getElem?_eq_getElem hltNat
  · rw [hwrap]
    exact List.getElem?_eq_getElem hltNat

/-- C1 witness: a concrete three-track catalog and the negative cursor
request `-1` land on the last track. -/
theorem setCursor_then_current_witness :
    ([Track.make "a" "A" none none none, Track.make "b" "B" none none none,
      Track.make "c" "C" none none none] : List Track) ≠ [] ∧
    ∃ t, ((Playlist.init [Track.make "a" "A" none none none,
        Track.make "b" "B" none none none,
        Track.make "c" "C" none none none]).setIndex (-1)).current = some t ∧
      ([Track.make "a" "A" none none none, Track.make "b" "B" none none none,
        Track.make "c" "C" none none none] : List Track)[((Int.tmod (-1) 3 + 3).tmod 3).toNat]? = some t :=
  ⟨by decide, setCursor_then_current _ (-1) (by decide)⟩

/-- `setIndex` never changes the track list. -/
theorem setIndex_tracks (p : Playlist) (i : ℤ) : (p.setIndex i).tracks = p.tracks := by
  unfold Playlist.setIndex
  split <;> rfl

/-- `setIndex` on an empty playlist is a no-op. -/
theorem setIndex_of_empty (p : Playlist) (i : ℤ) (h : p.tracks = []) :
    p.setIndex i = p := by
  unfold Playlist.setIndex
  rw [if_pos (by rw [h]; rfl)]

/-- On a non-empty playlist `setIndex` stores a cursor in `[0, n)`. -/
theorem setIndex_index_range (p : Playlist) (i : ℤ) (h : p.tracks.length ≠ 0) :
    0 ≤ (p.setIndex i).index ∧ (p.setIndex i).index < (p.tracks.length : ℤ) := by
  obtain ⟨-, hidx⟩ := setIndex_eq p i h
  have hn : 0 < (p.tracks.length : ℤ) := by exact_mod_cast Nat.pos_of_ne_zero h
  rw [hidx]
  exact ⟨Int.emod_nonneg i (by omega), Int.emod_lt_of_pos i hn⟩

/-- C7: on an empty catalog `current()`, `next()`, `previous()` return
null and never fault; `setIndex` is total over every integer (empty: a
no-op; non-empty: it stores an in-range cursor and keeps the tracks);
`byId` returns null whenever no track has the requested id. -/
theorem empty_catalog_safe :
    (∀ p : Playlist, p.tracks = [] →
      p.current = none ∧ p.next.current = none ∧ p.prev.current = none ∧
      ∀ i : ℤ, p.setIndex i = p) ∧
    (∀ (p : Playlist) (i : ℤ),
      (p.setIndex i).tracks = p.tracks ∧
      (p.tracks ≠ [] →
        0 ≤ (p.setIndex i).index ∧ (p.setIndex i).index < (p.tracks.length : ℤ))) ∧
    (∀ (p : Playlist) (id : String),
      (∀ t ∈ p.tracks, t.id ≠ id) → p.byId id = none) := by
  refine ⟨?_, ?_, ?_⟩
  · intro p hp
    have hset : ∀ i : ℤ, p.setIndex i = p := fun i => setIndex_of_empty p i hp
    have hcur : p.current = none := by
      unfold Playlist.current
      rw [hp]
      simp
    refine ⟨hcur, ?_, ?_, hset⟩
    · show (p.setIndex (p.index + 1)).current = none
      rw [hset]; exact hcur
    · show (p.setIndex (p.index - 1)).current = none
      rw [hset]; exact hcur
  · intro p i
    refine ⟨setIndex_tracks p i, fun hne => ?_⟩
    have hlen : p.tracks.length ≠ 0 := by
      have := List.length_pos.mpr hne
      omega
    exact setIndex_index_range p i hlen
  · intro p id hid
    unfold Playlist.byId
    rw [List.find?_eq_none]
    intro t ht
    simpa using hid t ht

/-- C7 witness: the empty catalog returns null from `current`, and a
one-track catalog returns null from `byId` on an absent id. -/
theorem empty_catalog_safe_witness :
    (Playlist.init []).current = none ∧
      (Playlist.init [tDemo]).byId "42" = none :=
  ⟨(empty_catalog_safe.1 (Playlist.init []) rfl).1,
   empty_catalog_safe.2.2 (Playlist.init [tDemo]) "42" (by decide)⟩

/-- Range of the stored cursor after any `setIndex`, stated on the
`setIndex` result so that it applies to `next` and `prev` as well. -/
theorem setIndex_result_range (q : Playlist) (i : ℤ)
    (h : (q.setIndex i).tracks ≠ []) :
    0 ≤ (q.setIndex i).index ∧
      (q.setIndex i).index < ((q.setIndex i).tracks.length : ℤ) := by
  rw [setIndex_tracks] at h ⊢
  have hlen : q.tracks.length ≠ 0 := by
    have := List.length_pos.mpr h
    omega
  exact setIndex_index_range q i hlen

/-- C8: in every API-reachable state of a catalog with a non-empty track
list, the cursor lies in `[0, n)`. -/
theorem reachable_cursor_in_range {p : Playlist} (hr : Reachable p) :
    p.tracks ≠ [] → 0 ≤ p.index ∧ p.index < (p.tracks.length : ℤ) := by
  induction hr with
  | init ts =>
    intro h
    simp only [Playlist.init] at h ⊢
    have hpos : 0 < ts.length := List.length_pos.mpr h
    exact ⟨le_refl 0, by exact_mod_cast hpos⟩
  | setIndex i hq ih =>
    intro h
    exact setIndex_result_range _ i h
  | next hq ih =>
    intro h
    simp only [Playlist.next] at h ⊢
    exact setIndex_result_range _ _ h
  | prev hq ih =>
    intro h
    simp only [Playlist.prev] at h ⊢
    exact setIndex_result_range _ _ h

/-- C8 witness: after one `next` on a freshly built one-track catalog the
cursor is in range. -/
theorem reachable_cursor_in_range_witness :
    (Playlist.init [tDemo]).next.tracks ≠ [] ∧
      0 ≤ (Playlist.init [tDemo]).next.index ∧
      (Playlist.init [tDemo]).next.index <
        ((Playlist.init [tDemo]).next.tracks.length : ℤ) :=
  ⟨by decide,
   reachable_cursor_in_range ((Reachable.init [tDemo]).next) (by decide)⟩

/-- C9 counterexample: the cursor field is publicly writable in JS, so a
catalog state may hold an out-of-range cursor; there `current()` is null
before `next(); prev()` but a track afterwards.  Concretely, with one
track and cursor 1, `current()` is null, while after `next(); prev()` the
cursor is 0 and `current()` is the track. -/
theorem next_prev_counterexample :
    ¬ ∀ p : Playlist, p.next.prev.current = p.current := by
  intro hall
  have h := hall { tracks := [tDemo], index := 1 }
  exact absurd h (by decide)

/-- C9 (amended): `next(); previous()` restores `current()` for every
catalog state satisfying the data-model cursor invariant — the catalog is
empty or the cursor lies in `[0, n)`. -/
theorem next_prev_roundtrip (p : Playlist)
    (h : p.tracks = [] ∨ (0 ≤ p.index ∧ p.index < (p.tracks.length : ℤ))) :
    p.next.prev.current = p.current := by
  rcases h with hemp | ⟨h0, hlt⟩
  · simp only [Playlist.next, Playlist.prev]
    rw [setIndex_of_empty p _ hemp, setIndex_of_empty p _ hemp]
  · have hn : 0 < p.tracks.length := by
      exact_mod_cast lt_of_le_of_lt h0 hlt
    have hlen : p.tracks.length ≠ 0 := by omega
    simp only [Playlist.next, Playlist.prev]
    obtain ⟨hT1, hI1⟩ := setIndex_eq p (p.index + 1) hlen
    have hlen1 : (p.setIndex (p.index + 1)).tracks.length ≠ 0 := by
      rw [hT1]; exact hlen
    obtain ⟨hT2, hI2⟩ :=
      setIndex_eq (p.setIndex (p.index + 1)) ((p.setIndex (p.index + 1)).index - 1) hlen1
    have hidx2 :
        ((p.setIndex (p.index + 1)).setIndex
          ((p.setIndex (p.index + 1)).index - 1)).index = p.index := by
      rw [hI2, hI1, hT1]
      rw [Int.sub_emod ((p.index + 1) % (p.tracks.length : ℤ)) 1 (p.tracks.length : ℤ),
        Int.emod_emod_of_dvd _ dvd_rfl, ← Int.sub_emod]
      rw [show p.index + 1 - 1 = p.index by ring]
      exact Int.emod_eq_of_lt h0 hlt
    have htr2 :
        ((p.setIndex (p.index + 1)).setIndex
          ((p.setIndex (p.index + 1)).index - 1)).tracks = p.tracks := by
      rw [hT2, hT1]
    unfold Playlist.current
    rw [hidx2, htr2]

/-- C9 witness: on a freshly built one-track catalog (cursor 0, in
range), `next(); prev()` leaves `current()` unchanged. -/
theorem next_prev_roundtrip_witness :
    ((Playlist.init [tDemo]).tracks = [] ∨
      (0 ≤ (Playlist.init [tDemo]).index ∧
        (Playlist.init [tDemo]).index < ((Playlist.init [tDemo]).tracks.length : ℤ))) ∧
    (Playlist.init [tDemo]).next.prev.current = (Playlist.init [tDemo]).current :=
  ⟨Or.inr (by decide), next_prev_roundtrip _ (Or.inr (by decide))⟩

/-- C4: with a known positive duration, `seekPercent(p)` sets the elapsed
time to `p * totalSeconds`; with duration 0 or unknown it changes
nothing. -/
theorem seekPercent_spec (e : AudioEngine) (p : ℚ) :
    (∀ d : ℚ, e.audio.duration = some d → 0 < d →
      (e.seekPercent p).audio.currentTime = p * d) ∧
    ((e.audio.duration = none ∨ e.audio.duration = some 0) →
      e.seekPercent p = e) := by
  constructor
  · intro d hd hpos
    unfold AudioEngine.seekPercent
    rw [hd]
    simp [hpos]
  · rintro (hd | hd)
    · unfold AudioEngine.seekPercent
      rw [hd]
    · unfold AudioEngine.seekPercent
      rw [hd]
      norm_num

/-- C4 witness: `seekPercent(0.5)` with a loaded duration of 120 yields
an elapsed time of `0.5 * 120 = 60`, and with duration 0 it is a
no-op. -/
theorem seekPercent_spec_witness :
    ({ audio := { src := "", duration := some 120, currentTime := 0 } } :
        AudioEngine).audio.duration = some 120 ∧ (0 : ℚ) < 120 ∧
    (({ audio := { src := "", duration := some 120, currentTime := 0 } } :
        AudioEngine).seekPercent (1 / 2)).audio.currentTime = (1 / 2 : ℚ) * 120 ∧
    ({ audio := { src := "", duration := some 0, currentTime := 7 } } :
        AudioEngine).seekPercent (1 / 2) =
      { audio := { src := "", duration := some 0, currentTime := 7 } } :=
  ⟨rfl, by norm_num,
   (seekPercent_spec _ (1 / 2)).1 120 rfl (by norm_num),
   (seekPercent_spec _ (1 / 2)).2 (Or.inr rfl)⟩

/-- C5: the percent field of `timeInfo()` always lies in `[0, 1]`; it is
`clamp(elapsed/total, 0, 1)` when the duration is known and positive, and
0 when the duration is 0 or unknown. -/
theorem timeInfo_percent_spec (e : AudioEngine) :
    (0 ≤ e.timeInfo.percent ∧ e.timeInfo.percent ≤ 1) ∧
    (∀ d : ℚ, e.audio.duration = some d → 0 < d →
      e.timeInfo.percent = min 1 (max 0 (e.audio.currentTime / d))) ∧
    ((e.audio.duration = none ∨ e.audio.duration = some 0) →
      e.timeInfo.percent = 0) := by
  refine ⟨?_, ?_, ?_⟩
  · unfold AudioEngine.timeInfo
    dsimp only
    split
    · constructor
      · exact le_min (by norm_num) (le_max_left 0 _)
      · exact min_le_left 1 _
    · norm_num
  · intro d hd hpos
    unfold AudioEngine.timeInfo
    rw [hd]
    simp [ne_of_gt hpos]
  · rintro (hd | hd) <;>
      · unfold AudioEngine.timeInfo
        rw [hd]
        simp

/-- C5 witness: with duration 2 and elapsed 1 the percent is
`min 1 (max 0 (1/2))`, and with an unknown duration it is 0. -/
theorem timeInfo_percent_spec_witness :
    ({ audio := { src := "", duration := some 2, currentTime := 1 } } :
        AudioEngine).audio.duration = some 2 ∧ (0 : ℚ) < 2 ∧
    ({ audio := { src := "", duration := some 2, currentTime := 1 } } :
        AudioEngine).timeInfo.percent = min 1 (max 0 ((1 : ℚ) / 2)) ∧
    AudioEngine.init.timeInfo.percent = 0 :=
  ⟨rfl, by norm_num,
   (timeInfo_percent_spec _).2.1 2 rfl (by norm_num),
   (timeInfo_percent_spec AudioEngine.init).2.2 (Or.inl rfl)⟩

/-- C6: `load(null)` and `load` of a track with an empty `audioUrl`
assign the synthesized tone as the source; `load` of a track with a
non-empty `audioUrl` assigns exactly that url.  Both branches are total:
a missing source is not an error. -/
theorem load_source_spec (e : AudioEngine) (t : Track) :
    (e.load none).audio.src = tinyBeepDataURI ∧
    (t.audioUrl = "" → (e.load (some t)).audio.src = tinyBeepDataURI) ∧
    (t.audioUrl ≠ "" → (e.load (some t)).audio.src = t.audioUrl) := by
  refine ⟨rfl, ?_, ?_⟩
  · intro h
    unfold AudioEngine.load
    simp [h]
  · intro h
    unfold AudioEngine.load
    simp [h]

/-- C6 witness: loading null yields the tone, and loading the first demo
track yields its url. -/
theorem load_source_spec_witness :
    (AudioEngine.init.load none).audio.src = tinyBeepDataURI ∧
      tDemo.audioUrl ≠ "" ∧
      (AudioEngine.init.load (some tDemo)).audio.src = tDemo.audioUrl :=
  ⟨(load_source_spec AudioEngine.init tDemo).1,
   by decide,
   (load_source_spec AudioEngine.init tDemo).2.2 (by decide)⟩

/-! ### Facts about the synthesized tone -/

/-- `sampleRate * seconds | 0` evaluates to 2000. -/
theorem beepLen_eq : beepLen = 2000 := by
  unfold beepLen jsToInt32 jsTrunc
  have h1 : ((sampleRate : ℝ) * 0.25) = ((2000 : ℤ) : ℝ) := by
    norm_num [sampleRate]
  rw [h1]
  rw [if_pos (by norm_num : (0 : ℝ) ≤ ((2000 : ℤ) : ℝ))]
  rw [Int.floor_intCast]
  norm_num

/-- The `data` chunk holds exactly 2000 sample bytes. -/
theorem beepData_length : beepData.length = 2000 := by
  unfold beepData
  rw [beepLen_eq]
  simp

/-- Floor bounds for one sample value: with `|sin| ≤ 1` the scaled,
biased sample lies in `[38.25, 216.75]`, so its floor is in
`[38, 216]`. -/
theorem sample_floor_bounds (s : ℝ) (h1 : -1 ≤ s) (h2 : s ≤ 1) :
    0 ≤ (s * 0.35 + 0.5) * 255 ∧
      38 ≤ ⌊(s * 0.35 + 0.5) * 255⌋ ∧ ⌊(s * 0.35 + 0.5) * 255⌋ ≤ 216 := by
  have hlow : (38.25 : ℝ) ≤ (s * 0.35 + 0.5) * 255 := by nlinarith
  have hhigh : (s * 0.35 + 0.5) * 255 ≤ 216.75 := by nlinarith
  refine ⟨by linarith, ?_, ?_⟩
  · exact Int.le_floor.mpr (by push_cast; linarith)
  · have h4 : ⌊(s * 0.35 + 0.5) * 255⌋ < 217 :=
      Int.floor_lt.mpr (by push_cast; linarith)
    omega

/-- Each emitted sample byte is the floor of the ideal-real sample
expression, and lies in `[38, 216]`. -/
theorem sampleByte_spec (i : ℕ) :
    (sampleByte i : ℤ) =
      ⌊(Real.sin (2 * Real.pi * freq * i / sampleRate) * 0.35 + 0.5) * 255⌋ ∧
    38 ≤ sampleByte i ∧ sampleByte i ≤ 216 := by
  obtain ⟨hx0, hf38, hf216⟩ :=
    sample_floor_bounds (Real.sin (2 * Real.pi * freq * i / sampleRate))
      (Real.neg_one_le_sin _) (Real.sin_le_one _)
  have h32 : (2 : ℤ) ^ 32 = 4294967296 := by norm_num
  have h31 : (2 : ℤ) ^ 31 = 2147483648 := by norm_num
  have h16 : (2 : ℤ) ^ 16 = 65536 := by norm_num
  unfold sampleByte jsToInt32 jsTrunc toUint16
  rw [if_pos hx0]
  have hm : ⌊(Real.sin (2 * Real.pi * freq * i / sampleRate) * 0.35 + 0.5) * 255⌋ % 2 ^ 32
      = ⌊(Real.sin (2 * Real.pi * freq * i / sampleRate) * 0.35 + 0.5) * 255⌋ :=
    Int.emod_eq_of_lt (by omega) (by omega)
  rw [hm]
  rw [if_pos (by omega)]
  have hm16 : ⌊(Real.sin (2 * Real.pi * freq * i / sampleRate) * 0.35 + 0.5) * 255⌋ % 2 ^ 16
      = ⌊(Real.sin (2 * Real.pi * freq * i / sampleRate) * 0.35 + 0.5) * 255⌋ :=
    Int.emod_eq_of_lt (by omega) (by omega)
  rw [hm16]
  refine ⟨Int.toNat_of_nonneg (by omega), ?_, ?_⟩ <;> omega

/-- The bytes of the `data` chunk are the sample bytes in order. -/
theorem beepData_getElem (i : ℕ) (h : i < 2000) :
    beepData[i]? = some (sampleByte i) := by
  have hlt : i < beepData.length := by
    rw [beepData_length]; exact h
  rw [List.getElem?_eq_getElem hlt]
  congr 1
  have hlen : beepLen.toNat = 2000 := by rw [beepLen_eq]; rfl
  simp [beepData]

/-- C3: for every `i < 2000` the `i`-th sample byte of the synthesized
tone equals `floor(sin(2*pi*440*i/8000) * 0.35 * 255 + 0.5 * 255)`. -/
theorem sample_bytes_formula (i : ℕ) (h : i < 2000) :
    ∃ b, beepData[i]? = some b ∧
      (b : ℤ) = ⌊Real.sin (2 * Real.pi * 440 * i / 8000) * 0.35 * 255 + 0.5 * 255⌋ := by
  refine ⟨sampleByte i, beepData_getElem i h, ?_⟩
  rw [(sampleByte_spec i).1]
  congr 1
  unfold freq sampleRate
  push_cast
  ring

/-- C3 witness: the sample byte at index 0. -/
theorem sample_bytes_formula_witness :
    (0 : ℕ) < 2000 ∧
    ∃ b, beepData[(0 : ℕ)]? = some b ∧
      (b : ℤ) = ⌊Real.sin (2 * Real.pi * 440 * (0 : ℕ) / 8000) * 0.35 * 255 + 0.5 * 255⌋ :=
  ⟨by norm_num, sample_bytes_formula 0 (by norm_num)⟩

/-- C10: every sample byte lies in `[38, 216]`, a strict subset of
`[0, 255]`, so the 8-bit encoding never wraps or clips. -/
theorem sample_bytes_in_range (i : ℕ) (h : i < 2000) :
    ∃ b, beepData[i]? = some b ∧ 38 ≤ b ∧ b ≤ 216 := by
  exact ⟨sampleByte i, beepData_getElem i h, (sampleByte_spec i).2⟩

/-- C10 witness: the sample byte at index 0 is in range. -/
theorem sample_bytes_in_range_witness :
    (0 : ℕ) < 2000 ∧ ∃ b, beepData[(0 : ℕ)]? = some b ∧ 38 ≤ b ∧ b ≤ 216 :=
  ⟨by norm_num, sample_bytes_in_range 0 (by norm_num)⟩

/-- C2 (against the code as written): the generator is a pure function of
its fixed parameters, its `data` chunk is exactly 2000 bytes, but the
whole WAV byte string is 2040 bytes, not the 2044 a canonical 44-byte
header would give: the `fmt ` sub-chunk declares 16 bytes yet the code
supplies only 12 (the 4-byte byte-rate field is missing), while the
declared RIFF size `36 + data.length = 2036` is the one matching a
44-byte header. -/
theorem beepWav_sizes :
    beepData.length = 2000 ∧ beepWav.length = 2040 ∧ beepWav.length ≠ 2044 := by
  have hd : beepData.length = 2000 := beepData_length
  have hw : beepWav.length = 2040 := by
    unfold beepWav
    rw [List.length_append, hd]
    decide
  exact ⟨hd, hw, by omega⟩
